import Mathlib

/-!
Verification of the mini-game / economy bot core.

The definitions below are shallow embeddings of the Python source:
`cogs/utils/db.py` (DatabaseManager), `cogs/economy/economy.py` (Economy cog),
`cogs/games/blackjack.py`, `cogs/games/tictactoe.py`, `cogs/games/snake.py`
and `cogs/games/wordscramble.py`.  Python `int` is modelled as `Int` (or `Nat`
where the source value is a validated non-negative quantity), Python `dict`
registries as functions `key → Option session`, and every use of `random` as
an explicit oracle parameter (a shuffle function or a choice index).
-/

/-! ### Economy data (db.py / economy.py) -/

abbrev UserId := Nat
abbrev ChannelId := Nat

/-- One economy record, the per-(guild, player) JSON document.
Fields mirror `{"balance": 0, "inventory": [], "last_daily": 0, "daily_streak": 0}`;
missing fields are read with default `0` / `[]` in the source, so the record
always carries all four. -/
structure EconomyData where
  balance : Int
  inventory : List String
  last_daily : Int
  daily_streak : Int
deriving DecidableEq

/-- Record created lazily when a player has no data yet. -/
def initEconomyData : EconomyData := ⟨0, [], 0, 0⟩

/-- `DatabaseManager.remove_currency` (db.py lines 115-129): clamps at zero
(`max(0, balance - amount)`), writes the record back and returns the new
balance. -/
def remove_currency (data : Option EconomyData) (amount : Int) : Int × EconomyData :=
  let d := data.getD initEconomyData
  let d2 := { d with balance := max 0 (d.balance - amount) }
  (d2.balance, d2)

/-- `DatabaseManager.add_currency` (db.py): adds and returns the new balance. -/
def add_currency (data : Option EconomyData) (amount : Int) : Int × EconomyData :=
  let d := data.getD initEconomyData
  let d2 := { d with balance := d.balance + amount }
  (d2.balance, d2)

/-- `Economy.remove_balance` (economy.py lines 709-732): with the database
reachable it always updates `balance = max(0, balance - amount)` and returns
`True`; there is no insufficient-funds branch. -/
def remove_balance (data : Option EconomyData) (amount : Int) : Bool × EconomyData :=
  let d := data.getD initEconomyData
  (true, { d with balance := max 0 (d.balance - amount) })

/-- `Economy.add_balance` (economy.py lines 683-707). -/
def add_balance (data : Option EconomyData) (amount : Int) : Bool × EconomyData :=
  let d := data.getD initEconomyData
  (true, { d with balance := d.balance + amount })

/-- A per-guild economy table, keyed by player id (the Python dict of JSON
documents, one guild fixed throughout). -/
abbrev EconomyDB := UserId → Option EconomyData

/-- Balance as read back from the table (0 for an absent record). -/
def balanceOf (eco : EconomyDB) (uid : UserId) : Int :=
  ((eco uid).getD initEconomyData).balance

/-- Table-level credit: `Economy.add_balance` applied to one key. -/
def addBalanceDB (eco : EconomyDB) (uid : UserId) (amount : Int) : EconomyDB :=
  fun k => if k = uid then some (add_balance (eco uid) amount).2 else eco k

/-! ### Daily reward (`Economy.daily`, economy.py lines 149-197) -/

inductive DailyOutcome where
  | tooSoon (timeLeft : Int)
  | claimed (baseReward streakBonus totalReward : Int) (written : EconomyData)
deriving DecidableEq

def daily_cooldown : Int := 86400

def daily_streak_bonus : Int := 50

/-- `Economy.daily`: `base_reward` stands for the sampled
`random.randint(self.daily_min, self.daily_max)` (uniform on 100..200).
Mirrors the source: `streak_bonus` starts at 0 and is assigned only in the
"continue streak" branch (`time_since_last < cooldown * 2`); the reset branch
sets `streak = 1` and leaves the bonus at 0. -/
def daily (data : Option EconomyData) (now : Int) (base_reward : Int) : DailyOutcome :=
  let d := data.getD initEconomyData
  let time_since_last := now - d.last_daily
  if time_since_last < daily_cooldown then
    .tooSoon (daily_cooldown - time_since_last)
  else
    let streak :=
      if time_since_last < daily_cooldown * 2 then d.daily_streak + 1 else 1
    let streak_bonus :=
      if time_since_last < daily_cooldown * 2 then streak * daily_streak_bonus else 0
    let total_reward := base_reward + streak_bonus
    .claimed base_reward streak_bonus total_reward
      { d with
        balance := d.balance + total_reward
        last_daily := now
        daily_streak := streak }

/-- Amended specification of `daily` for comparison (claim C3 as corrected):
the streak bonus `newStreak * 50` is credited only in the within-48h branch;
the reset branch credits the base reward alone. -/
def daily_spec_amended (d : EconomyData) (now base : Int) : DailyOutcome :=
  let delta := now - d.last_daily
  if delta < 86400 then .tooSoon (86400 - delta)
  else if delta < 172800 then
    let s := d.daily_streak + 1
    .claimed base (s * 50) (base + s * 50)
      ⟨d.balance + (base + s * 50), d.inventory, now, s⟩
  else
    .claimed base 0 (base + 0) ⟨d.balance + (base + 0), d.inventory, now, 1⟩

/-! ### Theorems for C1 (debit) and C3 (daily reward) -/

/-- C1 counterexample: the claim says a debit of 100 against a balance of 50
fails (returns false) and leaves the balance at 50.  In the code
`Economy.remove_balance` and `DatabaseManager.remove_currency` instead clamp
the balance to 0 and report success. -/
theorem C1_remove_balance_cex :
    (remove_balance (some ⟨50, [], 0, 0⟩) 100).1 = true ∧
    (remove_balance (some ⟨50, [], 0, 0⟩) 100).1 ≠ false ∧
    (remove_balance (some ⟨50, [], 0, 0⟩) 100).2.balance = 0 ∧
    (remove_balance (some ⟨50, [], 0, 0⟩) 100).2.balance ≠ 50 ∧
    (remove_currency (some ⟨50, [], 0, 0⟩) 100).1 = 0 := by
  decide

/-- C1 as corrected: a debit whose amount exceeds a non-negative balance does
not fail; `remove_balance` (backed by the same clamp as `remove_currency`)
returns `true` and floors the stored balance at zero. -/
theorem C1_remove_balance_clamps (d : EconomyData) (amount : Int)
    (hlt : d.balance < amount) :
    (remove_balance (some d) amount).1 = true ∧
    (remove_balance (some d) amount).2.balance = 0 ∧
    (remove_currency (some d) amount).1 = 0 ∧
    (remove_currency (some d) amount).2.balance = 0 := by
  refine ⟨rfl, ?_, ?_, ?_⟩ <;> simp [remove_balance, remove_currency] <;> omega

/-- C1 witness: debiting 100 from a balance of 50 returns true and floors at 0. -/
theorem C1_remove_balance_clamps_witness :
    (remove_balance (some ⟨50, [], 0, 0⟩) 100).1 = true ∧
    (remove_balance (some ⟨50, [], 0, 0⟩) 100).2.balance = 0 ∧
    (remove_currency (some ⟨50, [], 0, 0⟩) 100).1 = 0 ∧
    (remove_currency (some ⟨50, [], 0, 0⟩) 100).2.balance = 0 :=
  C1_remove_balance_clamps ⟨50, [], 0, 0⟩ 100 (by decide)

/-- C3 counterexample: at a claim with `now - last_daily ≥ 172800` (streak
reset branch) the code credits only the base reward; the claim demands
`base + (new streak) * 50 = base + 50`.  Concretely: stored streak 5,
`last_daily = 0`, `now = 200000`, base roll 100 credits 100, not 150. -/
theorem C3_daily_reset_cex :
    daily (some ⟨0, [], 0, 5⟩) 200000 100 =
      .claimed 100 0 100 ⟨100, [], 200000, 1⟩ ∧
    (100 : Int) ≠ 100 + 1 * 50 := by
  decide

/-- C3 as corrected: when `now - last_daily ≥ 86400` the stored streak becomes
`streak+1` if `now - last_daily < 172800` and `1` otherwise, but the streak
bonus `(new streak) * 50` is credited only in the first branch; the reset
branch credits the base reward alone.  The two-claim example still holds: a
fresh record claiming at t=0 and again at t=90000 ends with streak 2 and a
+100 bonus on the second claim. -/
theorem C3_daily_corrected (d : EconomyData) (now base b1 b2 : Int) :
    daily (some d) now base = daily_spec_amended d now base ∧
    daily (some ⟨0, [], -200000, 0⟩) 0 b1 = .claimed b1 0 b1 ⟨b1 + 0, [], 0, 1⟩ ∧
    daily (some ⟨b1 + 0, [], 0, 1⟩) 90000 b2 =
      .claimed b2 100 (b2 + 100) ⟨b1 + 0 + (b2 + 100), [], 90000, 2⟩ := by
  refine ⟨?_, ?_, ?_⟩
  · simp only [daily, daily_spec_amended, daily_cooldown, daily_streak_bonus,
      Option.getD_some]
    by_cases h1 : now - d.last_daily < 86400
    · simp [h1]
    · by_cases h2 : now - d.last_daily < 172800
      · have h2a : now - d.last_daily < 86400 * 2 := by omega
        simp [h1, h2, h2a]
      · have h2a : ¬now - d.last_daily < 86400 * 2 := by omega
        simp [h1, h2, h2a]
  · norm_num [daily, daily_cooldown, daily_streak_bonus]
  · norm_num [daily, daily_cooldown, daily_streak_bonus]

/-! ### Blackjack (cogs/games/blackjack.py) -/

inductive Suit where
  | hearts | diamonds | clubs | spades
deriving DecidableEq

/-- A playing card: `value` is the rank 1..13 (1 = Ace, 11..13 = face). -/
structure Card where
  suit : Suit
  value : Nat
deriving DecidableEq

/-- `Card.blackjack_value`: Ace counts 11 initially, 10+ counts 10. -/
def blackjack_value (c : Card) : Nat :=
  if c.value = 1 then 11
  else if 10 ≤ c.value then 10
  else c.value

namespace Deck

/-- `Deck.build`: the 52-card deck, suits × ranks 1..13. -/
def build : List Card :=
  [Suit.hearts, Suit.diamonds, Suit.clubs, Suit.spades].flatMap fun s =>
    (List.range 13).map fun v => ⟨s, v + 1⟩

/-- `Deck.deal` with `random.shuffle` abstracted as the oracle `sh`: when the
deck is empty it is rebuilt and shuffled before the `pop()` (which removes the
LAST element).  `pop` on an empty list is the only failure, reported as
`none`. -/
def deal (sh : List Card → List Card) (deck : List Card) : Option (Card × List Card) :=
  let cards := if deck.isEmpty then sh build else deck
  match cards.getLast? with
  | some c => some (c, cards.dropLast)
  | none => none

end Deck

/-- Ace-reduction loop of `BlackjackGame.get_hand_value`:
`while value > 21 and aces > 0: value -= 10; aces -= 1`. -/
def reduceAces : Nat → Nat → Nat
  | value, 0 => value
  | value, aces + 1 => if 21 < value then reduceAces (value - 10) aces else value

/-- `BlackjackGame.get_hand_value`. -/
def get_hand_value (hand : List Card) : Nat :=
  reduceAces ((hand.map blackjack_value).sum) ((hand.filter (fun c => c.value = 1)).length)

/-- The value of a card when every ace is counted as 1 (used to state C5). -/
def min_card_value (c : Card) : Nat :=
  if c.value = 1 then 1 else blackjack_value c

/-- Hand value with every ace counted as 1 (used to state C5). -/
def min_hand_value (hand : List Card) : Nat :=
  (hand.map min_card_value).sum

/-- `BlackjackGame.is_blackjack`: exactly two cards, an ace plus a ten-valued
card. -/
def is_blackjack : List Card → Bool
  | [a, b] =>
      (a.value = 1 && 10 ≤ blackjack_value b) || (b.value = 1 && 10 ≤ blackjack_value a)
  | _ => false

inductive BJResult where
  | push | blackjack | dealer_blackjack | bust | dealer_bust | dealer_wins | player_wins
deriving DecidableEq

/-- In-memory Blackjack session (`BlackjackGame`): the presentation fields
(`player` object, `message`) are dropped; `player` is carried by the registry
key. -/
structure BlackjackGame where
  bet : Nat
  deck : List Card
  player_hand : List Card
  dealer_hand : List Card
  player_stood : Bool
  game_over : Bool
  result : Option BJResult
deriving DecidableEq

namespace BlackjackGame

/-- `BlackjackGame.check_game_over`, with the source's branch order. -/
def check_game_over (g : BlackjackGame) : BlackjackGame :=
  let player_value := get_hand_value g.player_hand
  let dealer_value := get_hand_value g.dealer_hand
  let pb := is_blackjack g.player_hand
  let db := is_blackjack g.dealer_hand
  if pb && db then { g with result := some .push, game_over := true }
  else if pb then { g with result := some .blackjack, game_over := true }
  else if db then { g with result := some .dealer_blackjack, game_over := true }
  else if 21 < player_value then { g with result := some .bust, game_over := true }
  else if g.player_stood then
    { g with
      result := some (if 21 < dealer_value then .dealer_bust
        else if player_value < dealer_value then .dealer_wins
        else if dealer_value < player_value then .player_wins
        else .push)
      game_over := true }
  else g

/-- Dealer draw loop of `player_stand`
(`while dealer_value < 17: dealer_hand.append(deck.deal())`), with explicit
fuel.  Fuel 17 is enough for any deck of real cards: every drawn card raises
the all-aces-low hand value by at least 1 and the loop stops no later than
when that value reaches 17, so the fuel-exhausted and failed-deal branches are
never taken on decks built from `Deck.build` (see `Deck.deal` returning
`some` in C10). -/
def dealerDraw (sh : List Card → List Card) :
    Nat → List Card → List Card → List Card × List Card
  | 0, deck, hand => (deck, hand)
  | fuel + 1, deck, hand =>
    if get_hand_value hand < 17 then
      match Deck.deal sh deck with
      | some (c, deck2) => dealerDraw sh fuel deck2 (hand ++ [c])
      | none => (deck, hand)
    else (deck, hand)

/-- `BlackjackGame.player_stand`: rejected when the game is over or the player
already stood; otherwise the dealer draws to 17 and the stand is recorded. -/
def player_stand (sh : List Card → List Card) (g : BlackjackGame) :
    Bool × BlackjackGame :=
  if g.game_over || g.player_stood then (false, g)
  else
    let (deck2, hand2) := dealerDraw sh 17 g.deck g.dealer_hand
    (true, { g with player_stood := true, dealer_hand := hand2, deck := deck2 })

/-- `BlackjackGame.calculate_reward`: `int(bet * 2.5)` for a natural, 2x for a
win, the bet back on a push, 0 otherwise. -/
def calculate_reward (g : BlackjackGame) : Nat :=
  match g.result with
  | some .blackjack => g.bet * 5 / 2
  | some .player_wins => g.bet * 2
  | some .dealer_bust => g.bet * 2
  | some .push => g.bet
  | _ => 0

end BlackjackGame

/-! ### Blackjack cog: session registry and command flow -/

/-- `Blackjack.games`: the module dict `{user id: game}`. -/
abbrev BJRegistry := UserId → Option BlackjackGame

/-- The methods the `Economy` cog actually defines (economy.py): the commands
plus the two cross-cog helpers.  There is no `get_balance`. -/
def economyMethodNames : List String :=
  ["balance", "daily", "work", "pay", "leaderboard", "gamble",
   "add_balance", "remove_balance"]

/-- Attribute lookup `economy_cog.get_balance` as performed by
blackjack.py line 278 (and tictactoe.py line 208): `Economy` defines no such
method, so the lookup raises `AttributeError`.  Modelled as the `Option` of a
balance reader, which is `none` exactly because `"get_balance"` is not among
`economyMethodNames`. -/
def economyGetBalance : Option (EconomyDB → UserId → Int) :=
  if "get_balance" ∈ economyMethodNames then some balanceOf else none

inductive BJCommandOutcome where
  | alreadyActive
  | invalidBet
  | insufficientFunds
  | attributeError
  | started
deriving DecidableEq

/-- The pre-game part of the `blackjack` command (blackjack.py lines
229-294): active-game check, bet range check (10..1000, default 10), balance
read through the Economy cog, bet escrow, session creation.  `sh` shuffles
the fresh game's deck; initial dealing pops the last four cards
(player, dealer, player, dealer in source order). -/
def blackjackCommand (sh : List Card → List Card) (games : BJRegistry)
    (eco : EconomyDB) (author : UserId) (bet? : Option Int) :
    BJCommandOutcome × BJRegistry × EconomyDB :=
  if (games author).isSome then (.alreadyActive, games, eco)
  else
    let bet := bet?.getD 10
    if bet < 10 then (.invalidBet, games, eco)
    else if 1000 < bet then (.invalidBet, games, eco)
    else
      match economyGetBalance with
      | none => (.attributeError, games, eco)
      | some get_balance =>
        if get_balance eco author < bet then (.insufficientFunds, games, eco)
        else
          let eco2 := fun k =>
            if k = author then some (remove_balance (eco author) bet).2 else eco k
          let deck0 := sh Deck.build
          match Deck.deal sh deck0 with
          | none => (.attributeError, games, eco)
          | some (c1, d1) =>
            match Deck.deal sh d1 with
            | none => (.attributeError, games, eco)
            | some (c2, d2) =>
              match Deck.deal sh d2 with
              | none => (.attributeError, games, eco)
              | some (c3, d3) =>
                match Deck.deal sh d3 with
                | none => (.attributeError, games, eco)
                | some (c4, d4) =>
                  let g : BlackjackGame :=
                    { bet := bet.toNat, deck := d4, player_hand := [c1, c3],
                      dealer_hand := [c2, c4], player_stood := false,
                      game_over := false, result := none }
                  (.started, fun k => if k = author then some g else games k, eco2)

/-- `Blackjack.process_game_end`: award `calculate_reward` when positive and
delete the session entry (stats bookkeeping targets a separate collection and
is omitted). -/
def process_game_end (games : BJRegistry) (eco : EconomyDB) (author : UserId)
    (g : BlackjackGame) : BJRegistry × EconomyDB :=
  let reward := g.calculate_reward
  let eco2 := if 0 < reward then addBalanceDB eco author (reward : Int) else eco
  (fun k => if k = author then none else games k, eco2)

/-- The `asyncio.TimeoutError` branch of the blackjack game loop (lines
362-374): if the game is neither over nor stood, auto-stand, resolve, and run
`process_game_end`.  No refund path exists. -/
def blackjackOnTimeout (sh : List Card → List Card) (games : BJRegistry)
    (eco : EconomyDB) (author : UserId) (g : BlackjackGame) :
    BJRegistry × EconomyDB × BlackjackGame :=
  if !g.game_over && !g.player_stood then
    let g1 := (g.player_stand sh).2
    let g2 := g1.check_game_over
    let (games2, eco2) := process_game_end games eco author g2
    (games2, eco2, g2)
  else (games, eco, g)

/-! ### Theorems for C5 (hand value) and C10 (deal totality) -/

lemma reduceAces_le_or (A S : Nat) :
    reduceAces S A ≤ 21 ∨ (reduceAces S A = S - 10 * A ∧ 21 < S - 10 * A) := by
  induction A generalizing S with
  | zero => simp only [reduceAces]; omega
  | succ A ih =>
    simp only [reduceAces]
    by_cases h : 21 < S
    · simp only [if_pos h]
      rcases ih (S - 10) with h1 | ⟨h1, h2⟩
      · exact Or.inl h1
      · refine Or.inr ⟨?_, ?_⟩ <;> omega
    · simp only [if_neg h]; omega

lemma sum_blackjack_value (hand : List Card) :
    (hand.map blackjack_value).sum =
      min_hand_value hand + 10 * (hand.filter (fun c => c.value = 1)).length := by
  induction hand with
  | nil => simp [min_hand_value]
  | cons c t ih =>
    by_cases h : c.value = 1 <;>
      simp [min_hand_value, min_card_value, blackjack_value, h, List.sum_cons] at ih ⊢ <;>
      omega

/-- C5: `get_hand_value` sums ranks with faces as 10 and aces as 11, then
converts one ace from 11 to 1 per iteration while the total exceeds 21; the
returned value never exceeds 21 unless every ace counts as 1 and the sum
(`min_hand_value`) still exceeds 21. -/
theorem C5_hand_value_sound (hand : List Card) :
    get_hand_value hand ≤ 21 ∨
      (get_hand_value hand = min_hand_value hand ∧ 21 < min_hand_value hand) := by
  have hsum := sum_blackjack_value hand
  have hred := reduceAces_le_or (hand.filter (fun c => c.value = 1)).length
    ((hand.map blackjack_value).sum)
  rcases hred with h | ⟨h1, h2⟩
  · exact Or.inl h
  · refine Or.inr ⟨?_, ?_⟩
    · simp only [get_hand_value]
      omega
    · omega

/-- C10: `Deck.deal` is total — for any deck state and any permutation-valid
shuffle it returns a card (rebuilding and shuffling a fresh 52-card deck when
empty); moreover after a rebuild of the empty deck any card of the full
deck — in particular one already held in a hand — can be the card dealt, under
a suitable shuffle outcome. -/
theorem C10_deal_total (deck : List Card) (sh : List Card → List Card)
    (hsh : ∀ l, (sh l).Perm l) :
    (Deck.deal sh deck).isSome = true ∧
      ∀ c ∈ Deck.build, ∃ sh2 : List Card → List Card,
        (∀ l, (sh2 l).Perm l) ∧ Deck.deal sh2 [] = some (c, Deck.build.erase c) := by
  constructor
  · have hne : (if deck.isEmpty then sh Deck.build else deck) ≠ [] := by
      by_cases hd : deck.isEmpty
      · simp only [if_pos hd]
        intro hcon
        have hlen := (hsh Deck.build).length_eq
        rw [hcon] at hlen
        simp [Deck.build] at hlen
      · simp only [if_neg hd]
        exact fun hcon => hd (by simp [hcon])
    simp only [Deck.deal]
    rcases h : (if deck.isEmpty then sh Deck.build else deck).getLast? with _ | c
    · exact absurd (List.getLast?_eq_none_iff.mp h) hne
    · simp [h]
  · intro c hc
    refine ⟨fun l => if c ∈ l then l.erase c ++ [c] else l, ?_, ?_⟩
    · intro l
      by_cases hl : c ∈ l
      · simp only [if_pos hl]
        exact ((List.perm_append_singleton c (l.erase c)).trans
          (List.perm_cons_erase hl).symm)
      · simp [hl]
    · simp [Deck.deal, hc, List.getLast?_concat]

/-- C10 witness: dealing from the empty deck with the identity shuffle
succeeds. -/
theorem C10_deal_total_witness :
    (Deck.deal (fun l => l) ([] : List Card)).isSome = true :=
  (C10_deal_total [] (fun l => l) (fun l => List.Perm.refl l)).1

/-! ### Tic-Tac-Toe (cogs/games/tictactoe.py) -/

inductive Mark where
  | X | O
deriving DecidableEq

/-- In-memory Tic-Tac-Toe session (`TicTacToeGame`): board is the flat 3×3
list (cells `None`/`"X"`/`"O"`), players and turn carried by id; timing and
message fields are dropped. -/
structure TTTGame where
  player1 : UserId
  player2 : UserId
  bet : Nat
  board : List (Option Mark)
  current_turn : UserId
  winner : Option UserId
  game_over : Bool
deriving DecidableEq

/-- `TicTacToeGame.__init__`: empty board, X (player1) to move. -/
def TTTGame.new (p1 p2 : UserId) (bet : Nat) : TTTGame :=
  ⟨p1, p2, bet, List.replicate 9 none, p1, none, false⟩

/-- The 8 winning lines in the exact order `check_game_over` scans them:
rows (i = 0, 3, 6), columns (i = 0, 1, 2), the two diagonals. -/
def tttLines : List (Nat × Nat × Nat) :=
  [(0, 1, 2), (3, 4, 5), (6, 7, 8), (0, 3, 6), (1, 4, 7), (2, 5, 8), (0, 4, 8), (2, 4, 6)]

/-- `board[i] is not None and board[i] == board[j] == board[k]`. -/
def lineComplete (b : List (Option Mark)) (l : Nat × Nat × Nat) : Bool :=
  match b.getD l.1 none with
  | none => false
  | some s => (b.getD l.2.1 none = some s) && (b.getD l.2.2 none = some s)

/-- A specific line held entirely by symbol `s`. -/
def lineWonBy (b : List (Option Mark)) (s : Mark) (l : Nat × Nat × Nat) : Bool :=
  (b.getD l.1 none = some s) && (b.getD l.2.1 none = some s) && (b.getD l.2.2 none = some s)

/-- Some winning line is held entirely by symbol `s`. -/
def hasWin (b : List (Option Mark)) (s : Mark) : Bool :=
  tttLines.any (lineWonBy b s)

/-- `TicTacToeGame.check_game_over`: the source loops over rows, columns and
diagonals in the order of `tttLines` and returns at the first complete line,
declaring its owner the winner; otherwise a full board is a draw. -/
def TTTGame.check_game_over (g : TTTGame) : TTTGame :=
  match tttLines.find? (fun l => lineComplete g.board l) with
  | some l =>
    { g with
      winner := some (if g.board.getD l.1 none = some Mark.X then g.player1 else g.player2)
      game_over := true }
  | none =>
    if g.board.all (fun c => c.isSome) then { g with game_over := true } else g

/-- `TicTacToeGame.make_move`: rejects when the game is over, out of turn,
out of bounds (reaction positions are 0..8, so only the upper bound remains
on `Nat`) or into an occupied cell; otherwise places the mover's symbol,
passes the turn and re-checks the terminal condition. -/
def TTTGame.make_move (g : TTTGame) (position : Nat) (player : UserId) :
    Bool × TTTGame :=
  if g.game_over then (false, g)
  else if player ≠ g.current_turn then (false, g)
  else if 8 < position then (false, g)
  else if (g.board.getD position none).isSome then (false, g)
  else
    let sym := if player = g.player1 then Mark.X else Mark.O
    let g2 :=
      { g with
        board := g.board.set position (some sym)
        current_turn := if player = g.player1 then g.player2 else g.player1 }
    (true, g2.check_game_over)

/-- States reachable by legal play: a fresh two-player game (the command
rejects self-challenges, hence distinct players) followed by accepted moves.
Rejected moves return the state unchanged and are omitted. -/
inductive TTTReachable : TTTGame → Prop where
  | init (p1 p2 : UserId) (bet : Nat) : p1 ≠ p2 → TTTReachable (TTTGame.new p1 p2 bet)
  | step {g : TTTGame} (pos : Nat) (pl : UserId) : TTTReachable g →
      (g.make_move pos pl).1 = true → TTTReachable (g.make_move pos pl).2

/-! ### Tic-Tac-Toe cog: registry and command flow -/

/-- `TicTacToe.games`: the dict `{channel id: game}`. -/
abbrev TTTRegistry := ChannelId → Option TTTGame

inductive TTTCmdOutcome where
  | alreadyActive
  | noTarget
  | selfChallenge
  | botTarget
  | negativeBet
  | pendingChallenge
  | attributeError
  | challengeSent
deriving DecidableEq

/-- Entry of the `tictactoe` command (tictactoe.py lines 136-229): channel
registry check first, then target/bet validation, then — only when a bet is
staked — the balance reads through the missing `Economy.get_balance`.  The
session itself is only created later by `start_game`, after the challenge is
accepted. -/
def tictactoeCommand (games : TTTRegistry) (pending : UserId → Option UserId)
    (chan : ChannelId) (author : UserId) (member? : Option UserId)
    (memberBot : Bool) (bet : Int) : TTTCmdOutcome × TTTRegistry :=
  if (games chan).isSome then (.alreadyActive, games)
  else
    match member? with
    | none => (.noTarget, games)
    | some m =>
      if m = author then (.selfChallenge, games)
      else if memberBot then (.botTarget, games)
      else if bet < 0 then (.negativeBet, games)
      else if (pending m).isSome then (.pendingChallenge, games)
      else if 0 < bet then
        match economyGetBalance with
        | none => (.attributeError, games)
        | some _ => (.challengeSent, games)
      else (.challengeSent, games)

/-- Table-level debit: `Economy.remove_balance` applied to one key. -/
def removeBalanceDB (eco : EconomyDB) (uid : UserId) (amount : Int) : EconomyDB :=
  fun k => if k = uid then some (remove_balance (eco uid) amount).2 else eco k

/-- `TicTacToe.start_game`: create the session under the channel key and
escrow both bets. -/
def ttt_start_game (games : TTTRegistry) (eco : EconomyDB) (chan : ChannelId)
    (p1 p2 : UserId) (bet : Nat) : TTTRegistry × EconomyDB :=
  let g := TTTGame.new p1 p2 bet
  let eco2 :=
    if 0 < bet then removeBalanceDB (removeBalanceDB eco p1 (bet : Int)) p2 (bet : Int)
    else eco
  (fun k => if k = chan then some g else games k, eco2)

/-- `TicTacToe.end_game`: winner takes `2 * bet`, a draw refunds both, and
the channel entry is deleted. -/
def ttt_end_game (games : TTTRegistry) (eco : EconomyDB) (chan : ChannelId)
    (g : TTTGame) : TTTRegistry × EconomyDB :=
  let eco2 :=
    if 0 < g.bet then
      match g.winner with
      | some w => addBalanceDB eco w ((2 * g.bet : Nat) : Int)
      | none => addBalanceDB (addBalanceDB eco g.player1 (g.bet : Int)) g.player2 (g.bet : Int)
    else eco
  (fun k => if k = chan then none else games k, eco2)

/-- The `asyncio.TimeoutError` branch of `TicTacToe.game_loop` (lines
440-463): force the terminal state, return both bets when staked, release the
channel slot. -/
def tttOnTimeout (games : TTTRegistry) (eco : EconomyDB) (chan : ChannelId)
    (g : TTTGame) : TTTRegistry × EconomyDB × TTTGame :=
  let g2 := { g with game_over := true }
  let eco2 :=
    if 0 < g.bet then addBalanceDB (addBalanceDB eco g.player1 (g.bet : Int)) g.player2 (g.bet : Int)
    else eco
  (fun k => if k = chan then none else games k, eco2, g2)

/-! ### Theorems for C4 (missing get_balance), C2 (timeouts), C6 (registry) -/

lemma balanceOf_addBalanceDB_same (eco : EconomyDB) (u : UserId) (a : Int) :
    balanceOf (addBalanceDB eco u a) u = balanceOf eco u + a := by
  simp only [balanceOf, addBalanceDB, add_balance, if_pos]
  cases eco u <;> simp

lemma balanceOf_addBalanceDB_other (eco : EconomyDB) {u v : UserId} (a : Int)
    (h : u ≠ v) : balanceOf (addBalanceDB eco v a) u = balanceOf eco u := by
  simp [balanceOf, addBalanceDB, h]

lemma check_game_over_stood (g : BlackjackGame) (h : g.player_stood = true) :
    g.check_game_over.game_over = true := by
  simp only [BlackjackGame.check_game_over, h, if_true]
  split <;> try rfl
  split <;> try rfl
  split <;> try rfl
  split <;> rfl

/-- C4: a `!blackjack 10` with balance 0 does not produce the
InsufficientFunds notice the claim (and the code's own unreachable
insufficient-funds branch) intends: the balance read
`economy_cog.get_balance(...)` raises `AttributeError` because the Economy cog
defines no `get_balance`, aborting the command before the funds check.  No
session is created and the balance stays 0 — but the outcome is the error, not
the InsufficientFunds rejection. -/
theorem C4_blackjack_balance0_attribute_error :
    (blackjackCommand (fun l => l) (fun _ => none)
        (fun _ => some initEconomyData) 7 (some 10)).1 = .attributeError ∧
    (blackjackCommand (fun l => l) (fun _ => none)
        (fun _ => some initEconomyData) 7 (some 10)).1 ≠ .insufficientFunds ∧
    (blackjackCommand (fun l => l) (fun _ => none)
        (fun _ => some initEconomyData) 7 (some 10)).2.1 7 = none ∧
    balanceOf (blackjackCommand (fun l => l) (fun _ => none)
        (fun _ => some initEconomyData) 7 (some 10)).2.2 7 = 0 := by
  refine ⟨rfl, by decide, rfl, rfl⟩

/-- Concrete Blackjack session for the C2 counterexample: bet 50 escrowed,
player holds K♥ 8♥ (18), dealer holds K♠ 9♠ (19), player's turn. -/
def bjTimeoutCexGame : BlackjackGame :=
  { bet := 50, deck := [],
    player_hand := [⟨Suit.hearts, 13⟩, ⟨Suit.hearts, 8⟩],
    dealer_hand := [⟨Suit.spades, 13⟩, ⟨Suit.spades, 9⟩],
    player_stood := false, game_over := false, result := none }

def bjCexRegistry : BJRegistry := fun k => if k = 7 then some bjTimeoutCexGame else none

/-- Player 7's balance after the 50-coin escrow. -/
def bjCexEco : EconomyDB := fun _ => some ⟨100, [], 0, 0⟩

/-- C2 counterexample: when the Blackjack player stops responding, the game
is not forced to a timeout outcome with the bet returned: the timeout branch
auto-stands and resolves normally.  Here the resolution is `dealer_wins`, the
50-coin wager is never returned (balance stays 100 instead of the 150 the
claim demands), and there is no timeout outcome at all. -/
theorem C2_blackjack_timeout_cex :
    (blackjackOnTimeout (fun l => l) bjCexRegistry bjCexEco 7 bjTimeoutCexGame).2.2.result
      = some .dealer_wins ∧
    balanceOf (blackjackOnTimeout (fun l => l) bjCexRegistry bjCexEco 7 bjTimeoutCexGame).2.1 7
      = 100 ∧
    (100 : Int) ≠ 100 + 50 ∧
    (blackjackOnTimeout (fun l => l) bjCexRegistry bjCexEco 7 bjTimeoutCexGame).1 7 = none ∧
    bjTimeoutCexGame.bet = 50 := by
  refine ⟨by decide, by decide, by decide, by decide, by decide⟩

/-- C2 as corrected: only Tic-Tac-Toe implements the claimed timeout
contract — the session is forced terminal, both wagers return to their owners
and the channel slot is released.  Blackjack's timeout branch instead
auto-stands the player and resolves the session through the normal payout
table (`calculate_reward`), so the bet may be lost or even awarded doubled;
its slot is also released. -/
theorem C2_timeout_corrected (gamesB : BJRegistry) (gamesT : TTTRegistry)
    (ecoB ecoT : EconomyDB) (sh : List Card → List Card) (author : UserId)
    (chan : ChannelId) (gB : BlackjackGame) (gT : TTTGame)
    (hover : gB.game_over = false) (hstood : gB.player_stood = false)
    (hbet : 0 < gT.bet) (hp : gT.player1 ≠ gT.player2) :
    (tttOnTimeout gamesT ecoT chan gT).2.2.game_over = true ∧
    balanceOf (tttOnTimeout gamesT ecoT chan gT).2.1 gT.player1 =
      balanceOf ecoT gT.player1 + gT.bet ∧
    balanceOf (tttOnTimeout gamesT ecoT chan gT).2.1 gT.player2 =
      balanceOf ecoT gT.player2 + gT.bet ∧
    (tttOnTimeout gamesT ecoT chan gT).1 chan = none ∧
    (blackjackOnTimeout sh gamesB ecoB author gB).2.2.game_over = true ∧
    balanceOf (blackjackOnTimeout sh gamesB ecoB author gB).2.1 author =
      balanceOf ecoB author +
        ((blackjackOnTimeout sh gamesB ecoB author gB).2.2.calculate_reward : Int) ∧
    (blackjackOnTimeout sh gamesB ecoB author gB).1 author = none := by
  refine ⟨?_, ?_, ?_, ?_, ?_, ?_, ?_⟩
  · rfl
  · simp only [tttOnTimeout, if_pos hbet]
    rw [balanceOf_addBalanceDB_other _ _ hp, balanceOf_addBalanceDB_same]
  · simp only [tttOnTimeout, if_pos hbet]
    rw [balanceOf_addBalanceDB_same, balanceOf_addBalanceDB_other _ _ (Ne.symm hp)]
  · simp [tttOnTimeout]
  · simp only [blackjackOnTimeout, hover, hstood, Bool.not_false, Bool.and_self,
      if_true, process_game_end]
    exact check_game_over_stood _ (by simp [BlackjackGame.player_stand, hover, hstood])
  · simp only [blackjackOnTimeout, hover, hstood, Bool.not_false, Bool.and_self,
      if_true, process_game_end]
    by_cases hr : 0 < ((gB.player_stand sh).2.check_game_over).calculate_reward
    · simp only [if_pos hr]
      rw [balanceOf_addBalanceDB_same]
    · have h0 : ((gB.player_stand sh).2.check_game_over).calculate_reward = 0 := by omega
      simp [if_neg hr, h0]
  · simp [blackjackOnTimeout, hover, hstood, process_game_end]

def c2wGameB : BlackjackGame :=
  ⟨10, [], [⟨Suit.hearts, 5⟩], [⟨Suit.spades, 5⟩], false, false, none⟩

def c2wGameT : TTTGame := TTTGame.new 1 2 30

def c2wEcoB : EconomyDB := fun _ => some ⟨100, [], 0, 0⟩

def c2wEcoT : EconomyDB := fun _ => some ⟨20, [], 0, 0⟩

/-- C2 witness: the corrected timeout contract at a concrete pair of
sessions (a 30-coin Tic-Tac-Toe between players 1 and 2 in channel 5, and a
10-coin Blackjack for player 7). -/
theorem C2_timeout_corrected_witness :
    c2wGameB.game_over = false ∧ c2wGameB.player_stood = false ∧
    0 < c2wGameT.bet ∧ c2wGameT.player1 ≠ c2wGameT.player2 ∧
    ((tttOnTimeout (fun _ => none) c2wEcoT 5 c2wGameT).2.2.game_over = true ∧
     balanceOf (tttOnTimeout (fun _ => none) c2wEcoT 5 c2wGameT).2.1 c2wGameT.player1 =
       balanceOf c2wEcoT c2wGameT.player1 + c2wGameT.bet ∧
     balanceOf (tttOnTimeout (fun _ => none) c2wEcoT 5 c2wGameT).2.1 c2wGameT.player2 =
       balanceOf c2wEcoT c2wGameT.player2 + c2wGameT.bet ∧
     (tttOnTimeout (fun _ => none) c2wEcoT 5 c2wGameT).1 5 = none ∧
     (blackjackOnTimeout (fun l => l) (fun _ => none) c2wEcoB 7 c2wGameB).2.2.game_over = true ∧
     balanceOf (blackjackOnTimeout (fun l => l) (fun _ => none) c2wEcoB 7 c2wGameB).2.1 7 =
       balanceOf c2wEcoB 7 +
         ((blackjackOnTimeout (fun l => l) (fun _ => none) c2wEcoB 7 c2wGameB).2.2.calculate_reward : Int) ∧
     (blackjackOnTimeout (fun l => l) (fun _ => none) c2wEcoB 7 c2wGameB).1 7 = none) :=
  ⟨by decide, by decide, by decide, by decide,
    C2_timeout_corrected (fun _ => none) (fun _ => none) c2wEcoB c2wEcoT (fun l => l)
      7 5 c2wGameB c2wGameT (by decide) (by decide) (by decide) (by decide)⟩

/-- C6: the session registries are keyed dicts (so a key holds at most one
session by construction); a blackjack start for a user with an active game,
or a tictactoe start in a channel with an active game, is rejected as
already-active with neither registry nor economy touched; both games erase
the key when the session resolves (`process_game_end`, `end_game`, and the
timeout path). -/
theorem C6_registry_discipline (gamesB : BJRegistry) (gamesT : TTTRegistry)
    (ecoB ecoE ecoT ecoU : EconomyDB) (sh : List Card → List Card)
    (author chan : Nat) (bet? : Option Int)
    (pending : UserId → Option UserId) (member? : Option UserId)
    (memberBot : Bool) (bet : Int) (gB : BlackjackGame) (gT : TTTGame)
    (hB : (gamesB author).isSome) (hT : (gamesT chan).isSome) :
    blackjackCommand sh gamesB ecoB author bet? = (.alreadyActive, gamesB, ecoB) ∧
    tictactoeCommand gamesT pending chan author member? memberBot bet =
      (.alreadyActive, gamesT) ∧
    (process_game_end gamesB ecoE author gB).1 author = none ∧
    (ttt_end_game gamesT ecoT chan gT).1 chan = none ∧
    (tttOnTimeout gamesT ecoU chan gT).1 chan = none := by
  refine ⟨?_, ?_, ?_, ?_, ?_⟩
  · simp [blackjackCommand, hB]
  · simp [tictactoeCommand, hT]
  · simp [process_game_end]
  · simp [ttt_end_game]
  · simp [tttOnTimeout]

def c6Registry : BJRegistry := fun k => if k = 7 then some c2wGameB else none

def c6RegistryT : TTTRegistry := fun k => if k = 5 then some c2wGameT else none

/-- C6 witness: with player 7 holding an active blackjack game and channel 5
an active tictactoe game, both start requests are rejected and all
resolution paths clear the keys. -/
theorem C6_registry_discipline_witness :
    (c6Registry 7).isSome = true ∧ (c6RegistryT 5).isSome = true ∧
    (blackjackCommand (fun l => l) c6Registry (fun _ => none) 7 (some 10) =
        (.alreadyActive, c6Registry, (fun _ => none)) ∧
      tictactoeCommand c6RegistryT (fun _ => none) 5 7 (some 9) false 0 =
        (.alreadyActive, c6RegistryT) ∧
      (process_game_end c6Registry (fun _ => none) 7 c2wGameB).1 7 = none ∧
      (ttt_end_game c6RegistryT (fun _ => none) 5 c2wGameT).1 5 = none ∧
      (tttOnTimeout c6RegistryT (fun _ => none) 5 c2wGameT).1 5 = none) :=
  ⟨by decide, by decide,
    C6_registry_discipline c6Registry c6RegistryT (fun _ => none) (fun _ => none)
      (fun _ => none) (fun _ => none) (fun l => l) 7 5 (some 10) (fun _ => none)
      (some 9) false 0 c2wGameB c2wGameT (by decide) (by decide)⟩

/-! ### Snake (cogs/games/snake.py) -/

/-- In-memory Snake session (`SnakeGame`): grid size from the difficulty
(8/10/12/15 per side), snake as a head-first list of cells, `food` optional
(`None` between eating and a successful respawn).  Timing, difficulty label
and presentation fields are dropped. -/
structure SnakeGame where
  width : Nat
  height : Nat
  snake : List (Int × Int)
  direction : Int × Int
  next_direction : Int × Int
  score : Nat
  food : Option (Int × Int)
  game_over : Bool
deriving DecidableEq

/-- `place_food`'s scan for empty cells, in source order (`y` outer, `x`
inner). -/
def emptyPositions (width height : Nat) (snake : List (Int × Int)) : List (Int × Int) :=
  (List.range height).flatMap fun y =>
    (List.range width).filterMap fun x =>
      if ((x : Int), (y : Int)) ∈ snake then none else some ((x : Int), (y : Int))

/-- `SnakeGame.place_food` with `random.choice` abstracted as the index
`rand` (taken modulo the number of empty cells): no empty cell leaves the
food unset. -/
def place_food (rand : Nat) (g : SnakeGame) : SnakeGame :=
  let empties := emptyPositions g.width g.height g.snake
  if empties.isEmpty then g
  else { g with food := empties[rand % empties.length]? }

/-- `SnakeGame.move`: refuse when over; commit the queued direction; wrap the
new head with `%`; self-collision ends the game; otherwise prepend the head
and either eat (score up, food cleared and respawned) or drop the tail.  An
empty snake list (impossible at runtime, `self.snake[0]` would raise) returns
the state unchanged. -/
def SnakeGame.move (rand : Nat) (g : SnakeGame) : Bool × SnakeGame :=
  if g.game_over then (false, g)
  else
    match g.snake with
    | [] => (false, g)
    | (hx, hy) :: _ =>
      let dir := g.next_direction
      let g0 := { g with direction := dir }
      let new_head : Int × Int :=
        ((hx + dir.1) % (g.width : Int), (hy + dir.2) % (g.height : Int))
      if new_head ∈ g.snake then (false, { g0 with game_over := true })
      else
        let snake2 := new_head :: g.snake
        if g.food = some new_head then
          place_food rand { g0 with snake := snake2, score := g.score + 1, food := none }
            |> fun g2 => (true, g2)
        else (true, { g0 with snake := snake2.dropLast })

/-- The committed new head of a move from head `(hx, hy)`. -/
def next_head (g : SnakeGame) (hx hy : Int) : Int × Int :=
  ((hx + g.next_direction.1) % (g.width : Int), (hy + g.next_direction.2) % (g.height : Int))

/-! ### Word scramble (cogs/games/wordscramble.py) -/

/-- The reshuffle loop of `scramble_word`
(`while scrambled == word and attempts < 10`), with `random.shuffle`
abstracted as the stream `shuffle` of successive arrangements (shuffle `i` is
the arrangement produced on attempt `i`; each is a permutation of the word's
letters).  `fuel` is `10 - attempts`. -/
def scrambleGo (shuffle : Nat → List Char) (word : List Char) :
    Nat → Nat → List Char → List Char
  | 0, _, scrambled => scrambled
  | fuel + 1, attempts, scrambled =>
    if scrambled = word then scrambleGo shuffle word fuel (attempts + 1) (shuffle attempts)
    else scrambled

/-- `WordScramble.scramble_word` (lines 150-168): words of length ≤ 3 are
reversed; otherwise the letter list starts as the word itself and is
reshuffled up to 10 times until it differs, accepting the original
arrangement if all attempts collide. -/
def scramble_word (shuffle : Nat → List Char) (word : List Char) : List Char :=
  if word.length ≤ 3 then word.reverse
  else scrambleGo shuffle word 10 0 word

/-! ### Theorems for C8 (snake move) -/

/-- A serpentine snake covering the 8×8 board except cell (0,0), head at
(1,0): the configuration just before the final food at (0,0) is eaten. -/
def fullSnake : List (Int × Int) :=
  ((List.range 8).flatMap fun y =>
    if y % 2 = 0 then (List.range 8).map fun x => ((x : Int), (y : Int))
    else ((List.range 8).map fun x => ((x : Int), (y : Int))).reverse).drop 1

/-- Easy-difficulty 8×8 game about to eat the last free cell. -/
def fullGame : SnakeGame :=
  { width := 8, height := 8, snake := fullSnake, direction := (-1, 0),
    next_direction := (-1, 0), score := 62, food := some (0, 0), game_over := false }

/-- C8 counterexample: a move that eats the last free cell increments the
score but cannot respawn the food — the snake now covers the whole board, no
empty cell exists and the food is left absent, against the claim that on
eating "the score increments and food respawns on a uniformly random empty
cell". -/
theorem C8_snake_fullboard_cex :
    (SnakeGame.move 0 fullGame).1 = true ∧
    (SnakeGame.move 0 fullGame).2.score = 63 ∧
    (SnakeGame.move 0 fullGame).2.snake.length = 64 ∧
    emptyPositions 8 8 (SnakeGame.move 0 fullGame).2.snake = [] ∧
    (SnakeGame.move 0 fullGame).2.food = none := by
  decide

lemma place_food_of_no_empty (rand : Nat) (g : SnakeGame)
    (h : emptyPositions g.width g.height g.snake = []) : place_food rand g = g := by
  simp [place_food, h]

lemma place_food_mem (rand : Nat) (g : SnakeGame)
    (h : emptyPositions g.width g.height g.snake ≠ []) :
    ∃ f, (place_food rand g).food = some f ∧
      f ∈ emptyPositions g.width g.height g.snake := by
  have hlen : 0 < (emptyPositions g.width g.height g.snake).length :=
    List.length_pos.mpr h
  have hidx : rand % (emptyPositions g.width g.height g.snake).length <
      (emptyPositions g.width g.height g.snake).length := Nat.mod_lt _ hlen
  refine ⟨(emptyPositions g.width g.height g.snake).get ⟨_, hidx⟩, ?_, ?_⟩
  · have hne : (emptyPositions g.width g.height g.snake).isEmpty = false := by
      cases hemp : emptyPositions g.width g.height g.snake with
      | nil => exact absurd hemp h
      | cons a l => simp
    simp only [place_food, hne, Bool.false_eq_true, if_false]
    rw [List.getElem?_eq_getElem hidx]
    simp
  · exact List.get_mem _ _ _

lemma place_food_score (rand : Nat) (g : SnakeGame) :
    (place_food rand g).score = g.score := by
  simp only [place_food]
  split <;> rfl

lemma place_food_snake (rand : Nat) (g : SnakeGame) :
    (place_food rand g).snake = g.snake := by
  simp only [place_food]
  split <;> rfl

/-- Unfolding of `SnakeGame.move` on a live game with a non-empty snake. -/
lemma move_eval (rand : Nat) (g : SnakeGame) (hx hy : Int) (rest : List (Int × Int))
    (hgo : g.game_over = false) (hsn : g.snake = (hx, hy) :: rest) :
    SnakeGame.move rand g =
      (if next_head g hx hy ∈ g.snake then
        (false, { g with direction := g.next_direction, game_over := true })
      else if g.food = some (next_head g hx hy) then
        (true, place_food rand
          { g with direction := g.next_direction,
                   snake := next_head g hx hy :: g.snake,
                   score := g.score + 1, food := none })
      else (true, { g with direction := g.next_direction,
                           snake := (next_head g hx hy :: g.snake).dropLast })) := by
  conv_lhs => rw [SnakeGame.move]
  rw [hgo]
  simp only [Bool.false_eq_true, if_false]
  conv_lhs => rw [hsn]
  simp only [next_head, ← hsn]

/-- C8 as corrected: the new head is `((hx+dx) mod w, (hy+dy) mod h)`, always
in bounds; moving into the body ends the game; otherwise the head is
prepended and either the move eats (score up; the food respawns on a random
empty cell when one remains, and is left absent when the grown snake covers
the whole board) or the tail is dropped. -/
theorem C8_snake_move_corrected (rand : Nat) (g : SnakeGame) (hx hy : Int)
    (rest : List (Int × Int)) (hgo : g.game_over = false)
    (hsn : g.snake = (hx, hy) :: rest) (hW : 0 < g.width) (hH : 0 < g.height) :
    (0 ≤ (next_head g hx hy).1 ∧ (next_head g hx hy).1 < g.width ∧
     0 ≤ (next_head g hx hy).2 ∧ (next_head g hx hy).2 < g.height) ∧
    (next_head g hx hy ∈ g.snake →
      SnakeGame.move rand g =
        (false, { g with direction := g.next_direction, game_over := true })) ∧
    (next_head g hx hy ∉ g.snake → g.food = some (next_head g hx hy) →
      (SnakeGame.move rand g).1 = true ∧
      (SnakeGame.move rand g).2.score = g.score + 1 ∧
      (SnakeGame.move rand g).2.snake = next_head g hx hy :: g.snake ∧
      (emptyPositions g.width g.height (next_head g hx hy :: g.snake) ≠ [] →
        ∃ f, (SnakeGame.move rand g).2.food = some f ∧
          f ∈ emptyPositions g.width g.height (next_head g hx hy :: g.snake)) ∧
      (emptyPositions g.width g.height (next_head g hx hy :: g.snake) = [] →
        (SnakeGame.move rand g).2.food = none)) ∧
    (next_head g hx hy ∉ g.snake → g.food ≠ some (next_head g hx hy) →
      (SnakeGame.move rand g).1 = true ∧
      (SnakeGame.move rand g).2.snake = (next_head g hx hy :: g.snake).dropLast ∧
      (SnakeGame.move rand g).2.score = g.score ∧
      (SnakeGame.move rand g).2.food = g.food) := by
  have w0 : (0 : Int) < (g.width : Int) := by exact_mod_cast hW
  have h0 : (0 : Int) < (g.height : Int) := by exact_mod_cast hH
  have hmove := move_eval rand g hx hy rest hgo hsn
  refine ⟨⟨?_, ?_, ?_, ?_⟩, ?_, ?_, ?_⟩
  · exact Int.emod_nonneg _ (ne_of_gt w0)
  · exact Int.emod_lt_of_pos _ w0
  · exact Int.emod_nonneg _ (ne_of_gt h0)
  · exact Int.emod_lt_of_pos _ h0
  · intro hmem
    rw [hmove, if_pos hmem]
  · intro hmem hfood
    rw [hmove, if_neg hmem, if_pos hfood]
    refine ⟨rfl, ?_, ?_, ?_, ?_⟩
    · rw [place_food_score]
    · rw [place_food_snake]
    · exact fun hne => place_food_mem rand _ hne
    · intro hemp
      rw [place_food_of_no_empty rand
        { g with direction := g.next_direction,
                 snake := next_head g hx hy :: g.snake,
                 score := g.score + 1, food := none } hemp]
  · intro hmem hfood
    rw [hmove, if_neg hmem, if_neg hfood]
    exact ⟨rfl, rfl, rfl, rfl⟩

/-- A rightward-moving snake on the rightmost column of an easy 8×8 grid. -/
def wrapGame : SnakeGame := ⟨8, 8, [(7, 0)], (1, 0), (1, 0), 0, some (3, 3), false⟩

/-- C8 witness: moving right from the rightmost column wraps to column 0 and
stays in bounds; the non-eating move drops the tail and keeps score and food. -/
theorem C8_snake_move_corrected_witness :
    next_head wrapGame 7 0 = (0, 0) ∧
    (0 ≤ (next_head wrapGame 7 0).1 ∧ (next_head wrapGame 7 0).1 < wrapGame.width ∧
     0 ≤ (next_head wrapGame 7 0).2 ∧ (next_head wrapGame 7 0).2 < wrapGame.height) ∧
    ((SnakeGame.move 0 wrapGame).1 = true ∧
     (SnakeGame.move 0 wrapGame).2.snake = (next_head wrapGame 7 0 :: wrapGame.snake).dropLast ∧
     (SnakeGame.move 0 wrapGame).2.score = wrapGame.score ∧
     (SnakeGame.move 0 wrapGame).2.food = wrapGame.food) :=
  ⟨by decide,
   (C8_snake_move_corrected 0 wrapGame 7 0 [] rfl rfl (by decide) (by decide)).1,
   (C8_snake_move_corrected 0 wrapGame 7 0 [] rfl rfl (by decide) (by decide)).2.2.2
     (by decide) (by decide)⟩

/-! ### Theorems for C9 (scramble) -/

lemma scrambleGo_stop (shuffle : Nat → List Char) (word : List Char)
    (fuel attempts : Nat) (s : List Char) (h : s ≠ word) :
    scrambleGo shuffle word fuel attempts s = s := by
  cases fuel <;> simp [scrambleGo, h]

lemma scrambleGo_shape (shuffle : Nat → List Char) (word : List Char)
    (fuel : Nat) : ∀ (attempts : Nat) (s : List Char),
    scrambleGo shuffle word fuel attempts s = s ∨
      ∃ k, scrambleGo shuffle word fuel attempts s = shuffle k := by
  induction fuel with
  | zero => intro attempts s; exact Or.inl rfl
  | succ fuel ih =>
    intro attempts s
    by_cases h : s = word
    · simp only [scrambleGo, if_pos h]
      rcases ih (attempts + 1) (shuffle attempts) with h2 | ⟨k, h2⟩
      · exact Or.inr ⟨attempts, h2⟩
      · exact Or.inr ⟨k, h2⟩
    · exact Or.inl (scrambleGo_stop shuffle word (fuel + 1) attempts s h)

lemma scrambleGo_ne (shuffle : Nat → List Char) (word : List Char)
    (fuel : Nat) : ∀ (attempts : Nat),
    (∃ k, attempts ≤ k ∧ k < attempts + fuel ∧ shuffle k ≠ word) →
    scrambleGo shuffle word fuel attempts word ≠ word := by
  induction fuel with
  | zero =>
    intro attempts ⟨k, h1, h2, _⟩
    omega
  | succ fuel ih =>
    intro attempts ⟨k, h1, h2, h3⟩
    simp only [scrambleGo, if_pos rfl]
    by_cases hs : shuffle attempts = word
    · rw [hs]
      apply ih (attempts + 1)
      have hk : k ≠ attempts := fun hc => h3 (by rw [hc, hs])
      exact ⟨k, by omega, by omega, h3⟩
    · rw [scrambleGo_stop shuffle word fuel (attempts + 1) (shuffle attempts) hs]
      exact hs

/-- C9 counterexample: the word "aaaa" (length 4 > 3) cannot be scrambled
into a different string — every permutation of its letters is "aaaa" itself,
so the only possible shuffle outcomes all collide and `scramble_word` returns
the original word, contradicting the claimed derangement property. -/
theorem C9_scramble_cex :
    3 < (['a', 'a', 'a', 'a'] : List Char).length ∧
    (['a', 'a', 'a', 'a'] : List Char).permutations'.all
      (fun l => l = ['a', 'a', 'a', 'a']) = true ∧
    scramble_word (fun _ => ['a', 'a', 'a', 'a']) ['a', 'a', 'a', 'a'] =
      ['a', 'a', 'a', 'a'] := by
  refine ⟨by decide, by decide, by decide⟩

/-- C9 as corrected: for words longer than 3 letters, under every outcome of
the internal randomness (each shuffle attempt a permutation of the word's
letters) the result is a permutation of the same multiset of characters; it
differs from the original word whenever at least one of the 10 shuffle
attempts differs, but degenerates to the original when all attempts collide
(e.g. a word of identical letters). -/
theorem C9_scramble_corrected (shuffle : Nat → List Char) (word : List Char)
    (hperm : ∀ i, (shuffle i).Perm word) (hlen : 3 < word.length) :
    (scramble_word shuffle word).Perm word ∧
    ((∃ i, i < 10 ∧ shuffle i ≠ word) → scramble_word shuffle word ≠ word) := by
  have hnotle : ¬word.length ≤ 3 := by omega
  constructor
  · simp only [scramble_word, if_neg hnotle]
    rcases scrambleGo_shape shuffle word 10 0 word with h | ⟨k, h⟩
    · rw [h]
    · rw [h]; exact hperm k
  · intro ⟨i, hi, hne⟩
    simp only [scramble_word, if_neg hnotle]
    exact scrambleGo_ne shuffle word 10 0 ⟨i, Nat.zero_le i, by omega, hne⟩

/-- C9 witness: scrambling "abcd" with every attempt producing "badc" yields
a permutation of "abcd" different from it. -/
theorem C9_scramble_corrected_witness :
    (scramble_word (fun _ => ['b', 'a', 'd', 'c']) ['a', 'b', 'c', 'd']).Perm
      ['a', 'b', 'c', 'd'] ∧
    scramble_word (fun _ => ['b', 'a', 'd', 'c']) ['a', 'b', 'c', 'd'] ≠
      ['a', 'b', 'c', 'd'] :=
  ⟨(C9_scramble_corrected (fun _ => ['b', 'a', 'd', 'c']) ['a', 'b', 'c', 'd']
      (fun _ => (by decide : (['b', 'a', 'd', 'c'] : List Char).Perm ['a', 'b', 'c', 'd'])) (by decide)).1,
   (C9_scramble_corrected (fun _ => ['b', 'a', 'd', 'c']) ['a', 'b', 'c', 'd']
      (fun _ => (by decide : (['b', 'a', 'd', 'c'] : List Char).Perm ['a', 'b', 'c', 'd'])) (by decide)).2 ⟨0, by decide, by decide⟩⟩

/-! ### Theorems for C7 (Tic-Tac-Toe winning lines) -/

lemma cellD_set_same (b : List (Option Mark)) (pos : Nat) (v : Option Mark)
    (h : pos < b.length) : (b.set pos v).getD pos none = v := by
  rw [List.getD_eq_getElem?_getD, List.getElem?_set_eq_of_lt v h]
  rfl

lemma cellD_set_other (b : List (Option Mark)) (pos j : Nat) (v : Option Mark)
    (h : pos ≠ j) : (b.set pos v).getD j none = b.getD j none := by
  rw [List.getD_eq_getElem?_getD, List.getElem?_set_ne h,
    ← List.getD_eq_getElem?_getD]

lemma lineWonBy_set (b : List (Option Mark)) (pos : Nat) (v : Option Mark)
    (s : Mark) (i j k : Nat)
    (h : lineWonBy (b.set pos v) s (i, j, k) = true) :
    (pos = i ∨ pos = j ∨ pos = k) ∨ lineWonBy b s (i, j, k) = true := by
  by_cases hi : pos = i
  · exact Or.inl (Or.inl hi)
  by_cases hj : pos = j
  · exact Or.inl (Or.inr (Or.inl hj))
  by_cases hk : pos = k
  · exact Or.inl (Or.inr (Or.inr hk))
  refine Or.inr ?_
  simp only [lineWonBy] at h ⊢
  rwa [cellD_set_other b pos i v hi, cellD_set_other b pos j v hj,
    cellD_set_other b pos k v hk] at h

lemma lineWonBy_set_mem (b : List (Option Mark)) (pos : Nat) (sym s : Mark)
    (i j k : Nat) (hlen : pos < b.length) (hmem : pos = i ∨ pos = j ∨ pos = k)
    (h : lineWonBy (b.set pos (some sym)) s (i, j, k) = true) : s = sym := by
  simp only [lineWonBy, Bool.and_eq_true, decide_eq_true_eq] at h
  obtain ⟨⟨h1, h2⟩, h3⟩ := h
  rcases hmem with rfl | rfl | rfl
  · rw [cellD_set_same b pos (some sym) hlen] at h1
    exact (Option.some_inj.mp h1).symm
  · rw [cellD_set_same b pos (some sym) hlen] at h2
    exact (Option.some_inj.mp h2).symm
  · rw [cellD_set_same b pos (some sym) hlen] at h3
    exact (Option.some_inj.mp h3).symm

lemma lineComplete_of_lineWonBy (b : List (Option Mark)) (s : Mark)
    (l : Nat × Nat × Nat) (h : lineWonBy b s l = true) :
    lineComplete b l = true := by
  obtain ⟨i, j, k⟩ := l
  simp only [lineWonBy, Bool.and_eq_true, decide_eq_true_eq] at h
  obtain ⟨⟨h1, h2⟩, h3⟩ := h
  simp only [lineComplete]
  rw [h1]
  simp only [← List.getD_eq_getElem?_getD, h2, h3]
  simp

lemma check_game_over_board (g : TTTGame) :
    g.check_game_over.board = g.board := by
  simp only [TTTGame.check_game_over]
  cases tttLines.find? (fun l => lineComplete g.board l) with
  | none =>
    by_cases hall : (g.board.all fun c => c.isSome) = true <;> simp [hall]
  | some l => rfl

lemma check_game_over_live (g : TTTGame)
    (h : g.check_game_over.game_over = false) :
    ∀ l ∈ tttLines, lineComplete g.board l = false := by
  intro l hl
  simp only [TTTGame.check_game_over] at h
  rcases hf : tttLines.find? (fun l => lineComplete g.board l) with _ | l2
  · have := List.find?_eq_none.mp hf l hl
    simpa using this
  · rw [hf] at h
    simp at h

lemma make_move_accepted {g : TTTGame} {pos : Nat} {pl : UserId}
    (h : (g.make_move pos pl).1 = true) :
    g.game_over = false ∧ pl = g.current_turn ∧ pos ≤ 8 ∧
    g.board.getD pos none = none ∧
    (g.make_move pos pl).2 =
      TTTGame.check_game_over
        { g with
          board := g.board.set pos (some (if pl = g.player1 then Mark.X else Mark.O))
          current_turn := if pl = g.player1 then g.player2 else g.player1 } := by
  by_cases h1 : g.game_over = true
  · exfalso
    simp [TTTGame.make_move, h1] at h
  by_cases h2 : pl = g.current_turn
  case neg =>
    exfalso
    simp [TTTGame.make_move, h1, h2] at h
  by_cases h3 : 8 < pos
  · exfalso
    simp [TTTGame.make_move, h1, h2, h3] at h
  by_cases h4 : ((g.board[pos]?).getD none).isSome = true
  · exfalso
    simp [TTTGame.make_move, h1, h2, h3, h4] at h
  refine ⟨by simpa using h1, h2, Nat.le_of_not_lt h3, ?_, ?_⟩
  · rw [List.getD_eq_getElem?_getD]
    exact Option.not_isSome_iff_eq_none.mp (by simpa using h4)
  · simp [TTTGame.make_move, h1, h2, h3, h4]

/-- The shape invariant maintained by legal play: a 9-cell board, no winning
line while the game is live, and never winning lines for both marks. -/
def TTTInv (g : TTTGame) : Prop :=
  g.board.length = 9 ∧
  (g.game_over = false → ∀ s, hasWin g.board s = false) ∧
  ¬(hasWin g.board Mark.X = true ∧ hasWin g.board Mark.O = true)

lemma reachable_inv {g : TTTGame} (h : TTTReachable g) : TTTInv g := by
  induction h with
  | init p1 p2 bet hne =>
    have hX : hasWin (List.replicate 9 (none : Option Mark)) Mark.X = false := by decide
    have hO : hasWin (List.replicate 9 (none : Option Mark)) Mark.O = false := by decide
    refine ⟨by simp [TTTGame.new], ?_, ?_⟩
    · intro _ s
      cases s
      · exact hX
      · exact hO
    · rintro ⟨hx, _⟩
      rw [show (TTTGame.new p1 p2 bet).board = List.replicate 9 none from rfl, hX] at hx
      exact Bool.false_ne_true hx
  | @step g pos pl hre hacc ih =>
    obtain ⟨len9, hlive, _⟩ := ih
    obtain ⟨hgo, hturn, hpos, hcell, heval⟩ := make_move_accepted hacc
    rw [heval]
    have hlt : pos < g.board.length := by omega
    have key : ∀ s, hasWin
        (g.board.set pos (some (if pl = g.player1 then Mark.X else Mark.O))) s = true →
        s = (if pl = g.player1 then Mark.X else Mark.O) := by
      intro s hs
      obtain ⟨l, hl, hw⟩ := List.any_eq_true.mp hs
      obtain ⟨i, j, k⟩ := l
      rcases lineWonBy_set g.board pos _ s i j k hw with hmem | hold
      · exact lineWonBy_set_mem g.board pos _ s i j k hlt hmem hw
      · exfalso
        have hwin : hasWin g.board s = true :=
          List.any_eq_true.mpr ⟨(i, j, k), hl, hold⟩
        rw [hlive hgo s] at hwin
        exact Bool.false_ne_true hwin
    refine ⟨?_, ?_, ?_⟩
    · rw [check_game_over_board]
      simpa using len9
    · intro hlive2 s
      have hnc := check_game_over_live _ hlive2
      rw [check_game_over_board]
      by_contra hws
      have hws2 : hasWin
          (g.board.set pos (some (if pl = g.player1 then Mark.X else Mark.O))) s = true := by
        revert hws
        cases hasWin (g.board.set pos (some (if pl = g.player1 then Mark.X else Mark.O))) s <;>
          simp
      obtain ⟨l, hl, hw⟩ := List.any_eq_true.mp hws2
      have hnc2 : lineComplete
          (g.board.set pos (some (if pl = g.player1 then Mark.X else Mark.O))) l = false :=
        hnc l hl
      rw [lineComplete_of_lineWonBy _ _ _ hw] at hnc2
      exact absurd hnc2 (by simp)
    · rw [check_game_over_board]
      rintro ⟨hX, hO⟩
      have e1 := key Mark.X hX
      have e2 := key Mark.O hO
      exact absurd (e1.trans e2.symm) (by decide)

/-- Replay a list of `(position, player)` moves from a starting state. -/
def playMoves : TTTGame → List (Nat × UserId) → TTTGame
  | g, [] => g
  | g, (pos, pl) :: rest => playMoves (g.make_move pos pl).2 rest

/-- A legal alternating sequence for players 1 (X) and 2 (O) in which X's
final move at the centre completes the column 1-4-7 and the row 3-4-5
simultaneously. -/
def doubleWinMoves : List (Nat × UserId) :=
  [(1, 1), (0, 2), (7, 1), (2, 2), (3, 1), (6, 2), (5, 1), (8, 2), (4, 1)]

def doubleWinState : TTTGame := playMoves (TTTGame.new 1 2 0) doubleWinMoves

/-- C7 counterexample: a reachable state (every move legal and accepted) in
which TWO of the 8 lines are simultaneously completed winning lines — both
for player X — so "at most one of the 8 lines is a completed winning line"
fails.  (Both lines belong to the same player; see the corrected theorem.) -/
theorem C7_two_lines_cex :
    TTTReachable doubleWinState ∧
    lineComplete doubleWinState.board (1, 4, 7) = true ∧
    lineComplete doubleWinState.board (3, 4, 5) = true ∧
    ((1, 4, 7) : Nat × Nat × Nat) ≠ (3, 4, 5) ∧
    (1, 4, 7) ∈ tttLines ∧ (3, 4, 5) ∈ tttLines := by
  refine ⟨?_, by decide, by decide, by decide, by decide, by decide⟩
  have h0 : TTTReachable (TTTGame.new 1 2 0) := TTTReachable.init 1 2 0 (by decide)
  have h1 := TTTReachable.step 1 1 h0 (by decide)
  have h2 := TTTReachable.step 0 2 h1 (by decide)
  have h3 := TTTReachable.step 7 1 h2 (by decide)
  have h4 := TTTReachable.step 2 2 h3 (by decide)
  have h5 := TTTReachable.step 3 1 h4 (by decide)
  have h6 := TTTReachable.step 6 2 h5 (by decide)
  have h7 := TTTReachable.step 5 1 h6 (by decide)
  have h8 := TTTReachable.step 8 2 h7 (by decide)
  have h9 := TTTReachable.step 4 1 h8 (by decide)
  exact h9

/-- C7 as corrected: in every reachable Tic-Tac-Toe state all completed
winning lines belong to one single player (a final move may complete two
lines for that player at once), and a state in which both players hold
completed winning lines is unreachable. -/
theorem C7_no_two_winner_states (g : TTTGame) (h : TTTReachable g) :
    ¬(hasWin g.board Mark.X = true ∧ hasWin g.board Mark.O = true) :=
  (reachable_inv h).2.2

/-- C7 witness: the fresh game between players 1 and 2 has no two-winner
board. -/
theorem C7_no_two_winner_states_witness :
    ¬(hasWin (TTTGame.new 1 2 0).board Mark.X = true ∧
      hasWin (TTTGame.new 1 2 0).board Mark.O = true) :=
  C7_no_two_winner_states (TTTGame.new 1 2 0) (TTTReachable.init 1 2 0 (by decide))
